import Mathlib

/-!
Shallow embedding of the four-terminal controlled-source device family
(`nld_fourterm.cpp`): VCCS, LVCCS, CCCS and VCVS, together with the
scheduling and topology behaviour of their `update`, `reset` and
`update_terminals` entry points.  Floating-point doubles are modelled as
real numbers; terminal stamps are triples of reals; the solver-facing
scheduling behaviour is modelled as the list of `schedule_solve` targets
issued by one call.
-/

open Filter Real

/-- A terminal's written stamp: conductance, voltage offset and current,
as passed to `terminal_t::set`. -/
structure Stamp where
  cond : ℝ
  vOff : ℝ
  cur : ℝ

/-- Modelled from the spec: `terminal.set(conductance[, voltageOffset[, current]])`
writes a stamp; the one-argument form leaves the optional entries at zero. -/
def set1 (g : ℝ) : Stamp := ⟨g, 0, 0⟩

/-- Modelled from the spec: two-argument `terminal.set`, current left at zero. -/
def set2 (g v : ℝ) : Stamp := ⟨g, v, 0⟩

/-- Three-argument `terminal.set(conductance, voltageOffset, current)`. -/
def set3 (g v i : ℝ) : Stamp := ⟨g, v, i⟩

/-- State of a VCCS device: parameters `m_G`, `m_RI`, the gain factor
`m_gfac` (1.0 unless a derived variant overrides it) and the six terminal
stamps IP, IN, OP, OP1, ON, ON1. -/
structure VCCS where
  G : ℝ
  RI : ℝ
  gfac : ℝ
  IP : Stamp
  IN : Stamp
  OP : Stamp
  OP1 : Stamp
  ON : Stamp
  ON1 : Stamp

/-- `NETLIB_RESET(VCCS)` (nld_fourterm.cpp lines 44-57): stamps the input
pair with `GI = 1/RI` and the output pair and auxiliaries with
`±(G·gfac)`. -/
noncomputable def VCCS.reset (s : VCCS) : VCCS :=
  let m_mult := s.G * s.gfac
  let GI := 1 / s.RI
  { s with
    IP := set1 GI
    IN := set1 GI
    OP := set2 m_mult 0
    OP1 := set2 (-m_mult) 0
    ON := set2 (-m_mult) 0
    ON1 := set2 m_mult 0 }

/-- State of an LVCCS: the inherited VCCS core, the current limit
`m_cur_limit` and the filtered input estimate `m_vi`. -/
structure LVCCS where
  core : VCCS
  cur_limit : ℝ
  vi : ℝ

/-- `NETLIB_RESET(LVCCS)` delegates to `VCCS::reset`. -/
noncomputable def LVCCS.reset (s : LVCCS) : LVCCS :=
  { s with core := s.core.reset }

/-- `NETLIB_UPDATE_TERMINALS(LVCCS)` (nld_fourterm.cpp lines 91-112):
damped update of `m_vi`, tanh clamping, and the Norton companion stamp on
the four output-side terminals.  The net voltages of IP and IN are inputs. -/
noncomputable def LVCCS.update_terminals (s : LVCCS) (vIP vIN : ℝ) : LVCCS :=
  let m_mult := s.core.G * s.core.gfac
  let vi := vIP - vIN
  let m_vi :=
    if |m_mult / s.cur_limit * vi| > 0.5 then
      s.vi + 0.2 * Real.tanh ((vi - s.vi) / 0.2)
    else vi
  let x := m_mult / s.cur_limit * m_vi
  let X := Real.tanh x
  let beta := m_mult * (1 - X * X)
  let I := s.cur_limit * X - beta * m_vi
  { s with
    vi := m_vi
    core := { s.core with
      OP := set3 beta 0 I
      OP1 := set2 (-beta) 0
      ON := set3 (-beta) 0 (-I)
      ON1 := set2 beta 0 } }

/-- State of a CCCS: identical to the VCCS core; reset and update are
inherited unchanged. -/
structure CCCS where
  core : VCCS

/-- `NETLIB_RESET(CCCS)` delegates to `VCCS::reset`. -/
noncomputable def CCCS.reset (s : CCCS) : CCCS :=
  { s with core := s.core.reset }

/-- State of a VCVS: the inherited VCCS core, the output resistance
`m_RO` and the two extra output-side terminals OP2 and ON2. -/
structure VCVS where
  core : VCCS
  RO : ℝ
  OP2 : Stamp
  ON2 : Stamp

/-- `NETLIB_RESET(VCVS)` (nld_fourterm.cpp lines 137-144): sets
`m_gfac = 1/RO`, delegates to `VCCS::reset`, then stamps OP2 and ON2 each
with `1/RO`. -/
noncomputable def VCVS.reset (s : VCVS) : VCVS :=
  let core1 : VCCS := { s.core with gfac := 1 / s.RO }
  { s with
    core := core1.reset
    OP2 := set1 (1 / s.RO)
    ON2 := set1 (1 / s.RO) }

/-- The four externally connected terminals checked by `NETLIB_UPDATE(VCCS)`. -/
inductive Term4 where
  | IP | IN | OP | ON
deriving DecidableEq

/-- `NETLIB_UPDATE(VCCS)` (nld_fourterm.cpp lines 59-70): the cascade of
rail-net tests; the result is the list of terminals on which
`schedule_solve` is called, in order.  `rail t` tells whether terminal
`t`'s net is a rail net. -/
def VCCS.update_sched (rail : Term4 → Bool) : List Term4 :=
  if rail Term4.IP = false then [Term4.IP]
  else if rail Term4.IN = false then [Term4.IN]
  else if rail Term4.OP = false then [Term4.OP]
  else if rail Term4.ON = false then [Term4.ON]
  else []

/-- `NETLIB_UPDATE(LVCCS)` delegates to `VCCS::update`. -/
def LVCCS.update_sched : (Term4 → Bool) → List Term4 := VCCS.update_sched

/-- `NETLIB_UPDATE(CCCS)` delegates to `VCCS::update`. -/
def CCCS.update_sched : (Term4 → Bool) → List Term4 := VCCS.update_sched

/-- Calling `update()` twice with no intervening net-voltage change: the
rail flags are unchanged, so the issued `schedule_solve` calls are those
of two identical invocations, concatenated. -/
def updateTwice (rail : Term4 → Bool) : List Term4 :=
  VCCS.update_sched rail ++ VCCS.update_sched rail

/-- Modelled from the spec: `schedule_solve` marks the terminal's net
dirty — a flag on the net, not a counter.  `markDirty` applies a list of
issued requests to the dirty-flag state. -/
def markDirty (d : Term4 → Bool) (calls : List Term4) : Term4 → Bool :=
  calls.foldl (fun f t => fun u => if u = t then true else f u) d

/-- The six terminals of the four-terminal family, for the topology model. -/
inductive Term6 where
  | IP | IN | OP | ON | OP1 | ON1
deriving DecidableEq

/-- Topology state of one device: the opposite-terminal reference of each
terminal, the `connect_late` pairs still pending, and whether topology has
been finalized. -/
structure FourTermTopo where
  other : Term6 → Option Term6
  pendingLate : List (Term6 × Term6)
  finalized : Bool

/-- `NETLIB_NAME(VCCS)::start_internal` (nld_fourterm.cpp lines 31-41):
IP and IN are made each other's opposite terminal; OP/ON point at IP and
OP1/ON1 at IN; `connect_late(OP, OP1)` and `connect_late(ON, ON1)` are
recorded for the finalize phase. -/
def start_internal : FourTermTopo :=
  { other := fun t =>
      match t with
      | Term6.IP => some Term6.IN
      | Term6.IN => some Term6.IP
      | Term6.OP => some Term6.IP
      | Term6.OP1 => some Term6.IN
      | Term6.ON => some Term6.IP
      | Term6.ON1 => some Term6.IN
    pendingLate := [(Term6.OP, Term6.OP1), (Term6.ON, Term6.ON1)]
    finalized := false }

/-- Bind one late pair: the two terminals become each other's opposite. -/
def bindPair (f : Term6 → Option Term6) (p : Term6 × Term6) : Term6 → Option Term6 :=
  fun t => if t = p.1 then some p.2 else if t = p.2 then some p.1 else f t

/-- Modelled from the spec: `connect_late(a, b)` declares a late-bound
opposite pair, bound once full topology is known; the finalize phase binds
every pending pair and a device finalized twice is rejected. -/
def finalize (s : FourTermTopo) : Option FourTermTopo :=
  if s.finalized then none
  else some { other := s.pendingLate.foldl bindPair s.other
              pendingLate := []
              finalized := true }

/-- A convenient concrete LVCCS state: gain `mult` (gain factor 1),
current limit `cL`, filtered estimate `v0`; stamps initially zero. -/
noncomputable def mkLVCCS (mult cL v0 : ℝ) : LVCCS :=
  { core :=
      { G := mult, RI := 1, gfac := 1
        IP := set1 0, IN := set1 0, OP := set1 0
        OP1 := set1 0, ON := set1 0, ON1 := set1 0 }
    cur_limit := cL
    vi := v0 }

/-- A VCCS state with given parameters and zeroed stamps, for concrete
instantiations. -/
noncomputable def mkVCCS (g ri gf : ℝ) : VCCS :=
  { G := g, RI := ri, gfac := gf
    IP := set1 0, IN := set1 0, OP := set1 0
    OP1 := set1 0, ON := set1 0, ON1 := set1 0 }

/-- C3: after a VCCS reset, IP and IN each carry conductance `1/RI`, OP
carries `+G·gfac`, OP1 `−G·gfac`, ON `−G·gfac`, ON1 `+G·gfac`; for G=1,
RI=1e9, gfac=1 the input conductance is `1e-9` and the output stamp pairs
are `(+1, −1)` on (OP, OP1) and `(−1, +1)` on (ON, ON1). -/
theorem vccs_reset_spec (s : VCCS) :
    ((s.reset).IP.cond = 1 / s.RI ∧ (s.reset).IN.cond = 1 / s.RI ∧
     (s.reset).OP.cond = s.G * s.gfac ∧ (s.reset).OP1.cond = -(s.G * s.gfac) ∧
     (s.reset).ON.cond = -(s.G * s.gfac) ∧ (s.reset).ON1.cond = s.G * s.gfac) ∧
    (s.G = 1 ∧ s.RI = 1e9 ∧ s.gfac = 1 →
      (s.reset).IP.cond = 1e-9 ∧ (s.reset).IN.cond = 1e-9 ∧
      ((s.reset).OP.cond, (s.reset).OP1.cond) = (1, -1) ∧
      ((s.reset).ON.cond, (s.reset).ON1.cond) = (-1, 1)) := by
  refine ⟨⟨rfl, rfl, rfl, rfl, rfl, rfl⟩, ?_⟩
  rintro ⟨h1, h2, h3⟩
  simp only [VCCS.reset, set1, set2, h1, h2, h3]
  norm_num

/-- Witness for C3 at G=1, RI=1e9, gfac=1. -/
theorem vccs_reset_spec_witness :
    ((mkVCCS 1 1e9 1).G = 1 ∧ (mkVCCS 1 1e9 1).RI = 1e9 ∧ (mkVCCS 1 1e9 1).gfac = 1) ∧
    ((mkVCCS 1 1e9 1).reset.IP.cond = 1e-9 ∧ (mkVCCS 1 1e9 1).reset.IN.cond = 1e-9 ∧
     ((mkVCCS 1 1e9 1).reset.OP.cond, (mkVCCS 1 1e9 1).reset.OP1.cond) = (1, -1) ∧
     ((mkVCCS 1 1e9 1).reset.ON.cond, (mkVCCS 1 1e9 1).reset.ON1.cond) = (-1, 1)) :=
  ⟨⟨rfl, rfl, rfl⟩, (vccs_reset_spec (mkVCCS 1 1e9 1)).2 ⟨rfl, rfl, rfl⟩⟩

/-- C9: VCCS reset performs no parameter validation: for every state,
zero input resistance included, it totally computes the stamps and writes
conductance `1/RI` on IP and IN; at `RI = 0` the written value is the
division-by-zero value `1/0`. -/
theorem vccs_reset_no_validation (s : VCCS) :
    ((s.reset).IP.cond = 1 / s.RI ∧ (s.reset).IN.cond = 1 / s.RI) ∧
    (s.RI = 0 → (s.reset).IP.cond = 1 / (0 : ℝ) ∧ (s.reset).IN.cond = 1 / (0 : ℝ)) := by
  refine ⟨⟨rfl, rfl⟩, ?_⟩
  intro h
  constructor
  · show 1 / s.RI = 1 / (0 : ℝ)
    rw [h]
  · show 1 / s.RI = 1 / (0 : ℝ)
    rw [h]

/-- Witness for C9 at RI = 0. -/
theorem vccs_reset_no_validation_witness :
    (mkVCCS 1 0 1).RI = 0 ∧
    ((mkVCCS 1 0 1).reset.IP.cond = 1 / (0 : ℝ) ∧
     (mkVCCS 1 0 1).reset.IN.cond = 1 / (0 : ℝ)) :=
  ⟨rfl, (vccs_reset_no_validation (mkVCCS 1 0 1)).2 rfl⟩

/-- C8: VCVS reset sets the gain factor to `1/RO` and delegates to the
VCCS reset, so the multiplier is `G/RO` (OP `+G/RO`, OP1 `−G/RO`, ON
`−G/RO`, ON1 `+G/RO`, IP and IN each `1/RI`), and OP2 and ON2 each carry
conductance `1/RO`. -/
theorem vcvs_reset_spec (s : VCVS) :
    (s.reset).core.gfac = 1 / s.RO ∧
    (s.reset).core.OP.cond = s.core.G / s.RO ∧
    (s.reset).core.OP1.cond = -(s.core.G / s.RO) ∧
    (s.reset).core.ON.cond = -(s.core.G / s.RO) ∧
    (s.reset).core.ON1.cond = s.core.G / s.RO ∧
    (s.reset).core.IP.cond = 1 / s.core.RI ∧
    (s.reset).core.IN.cond = 1 / s.core.RI ∧
    (s.reset).OP2.cond = 1 / s.RO ∧
    (s.reset).ON2.cond = 1 / s.RO := by
  simp [VCVS.reset, VCCS.reset, set1, set2, mul_one_div, div_eq_mul_inv]

/-- C10: `update_terminals` on an LVCCS leaves the parameters G, RI,
gfac, the current limit, and the input stamps on IP and IN unchanged. -/
theorem lvccs_update_terminals_frame (s : LVCCS) (vIP vIN : ℝ) :
    (s.update_terminals vIP vIN).core.G = s.core.G ∧
    (s.update_terminals vIP vIN).core.RI = s.core.RI ∧
    (s.update_terminals vIP vIN).core.gfac = s.core.gfac ∧
    (s.update_terminals vIP vIN).cur_limit = s.cur_limit ∧
    (s.update_terminals vIP vIN).core.IP = s.core.IP ∧
    (s.update_terminals vIP vIN).core.IN = s.core.IN :=
  ⟨rfl, rfl, rfl, rfl, rfl, rfl⟩

/-- C2: one `update()` call checks the terminals in the fixed order IP,
IN, OP, ON and issues exactly one `schedule_solve` on the first whose net
is not a rail net — none when all four are rail nets; in particular a
rail IP with a non-rail IN targets IN.  LVCCS and CCCS delegate their
update to the VCCS one. -/
theorem vccs_update_priority (rail : Term4 → Bool) :
    VCCS.update_sched rail =
      (([Term4.IP, Term4.IN, Term4.OP, Term4.ON]).find? (fun t => !(rail t))).toList ∧
    (VCCS.update_sched rail).length ≤ 1 ∧
    (rail Term4.IP = true → rail Term4.IN = false →
      VCCS.update_sched rail = [Term4.IN]) ∧
    (rail Term4.IP = true ∧ rail Term4.IN = true ∧ rail Term4.OP = true ∧
      rail Term4.ON = true → VCCS.update_sched rail = []) ∧
    LVCCS.update_sched rail = VCCS.update_sched rail ∧
    CCCS.update_sched rail = VCCS.update_sched rail := by
  cases h1 : rail Term4.IP <;> cases h2 : rail Term4.IN <;>
    cases h3 : rail Term4.OP <;> cases h4 : rail Term4.ON <;>
    simp [VCCS.update_sched, LVCCS.update_sched, CCCS.update_sched,
      h1, h2, h3, h4, List.find?]

/-- Witness for C2: rail IP, non-rail IN — the single request targets IN. -/
theorem vccs_update_priority_witness :
    (fun t => t == Term4.IP) Term4.IP = true ∧
    (fun t => t == Term4.IP) Term4.IN = false ∧
    VCCS.update_sched (fun t => t == Term4.IP) = [Term4.IN] :=
  ⟨by decide, by decide,
    (vccs_update_priority (fun t => t == Term4.IP)).2.2.1 (by decide) (by decide)⟩

/-- C5 counterexample: two `update()` calls with no intervening voltage
change (all four nets non-rail) issue two `schedule_solve` calls in
total, not at most one. -/
theorem update_twice_two_calls :
    ¬ ((updateTwice (fun _ => false)).length ≤ 1) := by decide

/-- C5 amended: each of the two invocations issues at most one
`schedule_solve`, on the same terminal, and because a request only sets
the net's dirty flag, the dirty state after both invocations equals the
dirty state after a single one. -/
theorem update_twice_idempotent_effect (rail d : Term4 → Bool) :
    (VCCS.update_sched rail).length ≤ 1 ∧
    markDirty d (updateTwice rail) = markDirty d (VCCS.update_sched rail) := by
  constructor
  · unfold VCCS.update_sched
    split_ifs <;> simp
  · unfold updateTwice VCCS.update_sched
    split_ifs <;> simp only [markDirty, List.foldl, List.append_nil, List.cons_append,
      List.nil_append] <;> funext u <;> by_cases h : u = Term4.IP <;>
      by_cases h2 : u = Term4.IN <;> by_cases h3 : u = Term4.OP <;>
      by_cases h4 : u = Term4.ON <;> simp [h, h2, h3, h4]

/-- C4: after construction IP and IN are each other's opposite terminal;
OP/OP1 and ON/ON1 are not yet cross-referenced; finalizing the topology
succeeds exactly once, after which OP/OP1 and ON/ON1 are mutually
cross-referenced, IP/IN still are, and a second finalize is rejected. -/
theorem fourterm_topology :
    (start_internal.other Term6.IP = some Term6.IN ∧
     start_internal.other Term6.IN = some Term6.IP) ∧
    (start_internal.other Term6.OP ≠ some Term6.OP1 ∧
     start_internal.other Term6.ON ≠ some Term6.ON1 ∧
     start_internal.finalized = false) ∧
    ∃ s2, finalize start_internal = some s2 ∧
      (s2.other Term6.IP = some Term6.IN ∧ s2.other Term6.IN = some Term6.IP) ∧
      (s2.other Term6.OP = some Term6.OP1 ∧ s2.other Term6.OP1 = some Term6.OP ∧
       s2.other Term6.ON = some Term6.ON1 ∧ s2.other Term6.ON1 = some Term6.ON) ∧
      finalize s2 = none := by
  refine ⟨⟨rfl, rfl⟩, ⟨by decide, by decide, rfl⟩,
    ⟨_, rfl, ⟨by decide, by decide⟩,
      ⟨by decide, by decide, by decide, by decide⟩, rfl⟩⟩

/-- C1: one LVCCS `update_terminals` call, with `mult = G·gfac` and
`vi = V(IP) − V(IN)`, sets the filtered estimate to
`filteredVi + 0.2·tanh((vi − filteredVi)/0.2)` when
`|mult/currentLimit·vi| > 0.5` and to `vi` otherwise, and with
`X = tanh(mult/currentLimit·filteredVi)`, `beta = mult·(1 − X²)` and
`I = currentLimit·X − beta·filteredVi` stamps OP with `(beta, 0, +I)`,
OP1 with `(−beta, 0)`, ON with `(−beta, 0, −I)` and ON1 with
`(+beta, 0)`. -/
theorem lvccs_update_terminals_spec (s : LVCCS) (vIP vIN : ℝ) :
    let mult := s.core.G * s.core.gfac
    let vi := vIP - vIN
    let fv := if |mult / s.cur_limit * vi| > 0.5
      then s.vi + 0.2 * Real.tanh ((vi - s.vi) / 0.2) else vi
    let X := Real.tanh (mult / s.cur_limit * fv)
    let beta := mult * (1 - X ^ 2)
    let I := s.cur_limit * X - beta * fv
    (s.update_terminals vIP vIN).vi = fv ∧
    (s.update_terminals vIP vIN).core.OP = ⟨beta, 0, I⟩ ∧
    (s.update_terminals vIP vIN).core.OP1 = ⟨-beta, 0, 0⟩ ∧
    (s.update_terminals vIP vIN).core.ON = ⟨-beta, 0, -I⟩ ∧
    (s.update_terminals vIP vIN).core.ON1 = ⟨beta, 0, 0⟩ := by
  simp only [LVCCS.update_terminals, set3, set2, pow_two]
  refine ⟨?_, ?_, ?_, ?_, ?_⟩ <;> trivial

/-- The hyperbolic tangent is smaller than 1 everywhere. -/
theorem tanh_lt_one (x : ℝ) : Real.tanh x < 1 := by
  rw [Real.tanh_eq_sinh_div_cosh, div_lt_one (Real.cosh_pos x)]
  exact Real.sinh_lt_cosh x

/-- The hyperbolic tangent is larger than −1 everywhere. -/
theorem neg_one_lt_tanh (x : ℝ) : -1 < Real.tanh x := by
  have h := tanh_lt_one (-x)
  rw [Real.tanh_neg] at h
  linarith

/-- The hyperbolic tangent is positive at positive arguments. -/
theorem tanh_pos_of_pos {x : ℝ} (hx : 0 < x) : 0 < Real.tanh x := by
  rw [Real.tanh_eq_sinh_div_cosh]
  exact div_pos (Real.sinh_pos_iff.mpr hx) (Real.cosh_pos x)

/-- On positive arguments, `sinh` grows slower than `x · cosh x`. -/
theorem sinh_lt_mul_cosh {x : ℝ} (hx : 0 < x) : Real.sinh x < x * Real.cosh x := by
  have key : StrictMonoOn (fun y : ℝ => y * Real.cosh y - Real.sinh y) (Set.Ici 0) := by
    apply strictMonoOn_of_deriv_pos (convex_Ici 0)
    · exact ((continuous_id.mul Real.continuous_cosh).sub Real.continuous_sinh).continuousOn
    · intro y hy
      rw [interior_Ici, Set.mem_Ioi] at hy
      have h1 : HasDerivAt (fun y : ℝ => y * Real.cosh y - Real.sinh y)
          (1 * Real.cosh y + y * Real.sinh y - Real.cosh y) y :=
        ((hasDerivAt_id y).mul (Real.hasDerivAt_cosh y)).sub (Real.hasDerivAt_sinh y)
      rw [h1.deriv]
      have h2 : 0 < y * Real.sinh y := mul_pos hy (Real.sinh_pos_iff.mpr hy)
      nlinarith
  have h0 := key Set.left_mem_Ici (Set.mem_Ici.mpr hx.le) hx
  simp only [Real.cosh_zero, Real.sinh_zero, zero_mul, mul_zero, sub_zero] at h0
  linarith

/-- The hyperbolic tangent is below the identity on positive arguments. -/
theorem tanh_lt_self_of_pos {x : ℝ} (hx : 0 < x) : Real.tanh x < x := by
  rw [Real.tanh_eq_sinh_div_cosh, div_lt_iff₀ (Real.cosh_pos x)]
  exact sinh_lt_mul_cosh hx

/-- C6: in the damped branch (taken when `|mult/currentLimit·vi| > 0.5`),
`update_terminals` moves the filtered estimate strictly toward
`vi = V(IP) − V(IN)` whenever they differ, and never past it: the new
estimate lies strictly between the old one and `vi`. -/
theorem lvccs_damped_monotone (s : LVCCS) (vIP vIN : ℝ)
    (hbr : |s.core.G * s.core.gfac / s.cur_limit * (vIP - vIN)| > 0.5) :
    (s.vi < vIP - vIN →
      s.vi < (s.update_terminals vIP vIN).vi ∧
      (s.update_terminals vIP vIN).vi < vIP - vIN) ∧
    (vIP - vIN < s.vi →
      vIP - vIN < (s.update_terminals vIP vIN).vi ∧
      (s.update_terminals vIP vIN).vi < s.vi) := by
  have hvi : (s.update_terminals vIP vIN).vi
      = s.vi + 0.2 * Real.tanh (((vIP - vIN) - s.vi) / 0.2) := by
    simp only [LVCCS.update_terminals]
    rw [if_pos hbr]
  rw [hvi]
  constructor
  · intro hlt
    have ht : 0 < ((vIP - vIN) - s.vi) / 0.2 :=
      div_pos (by linarith) (by norm_num)
    have h1 := tanh_pos_of_pos ht
    have h2 := tanh_lt_self_of_pos ht
    have h3 : 0.2 * Real.tanh (((vIP - vIN) - s.vi) / 0.2) < (vIP - vIN) - s.vi := by
      have h4 := (mul_lt_mul_left (show (0 : ℝ) < 0.2 by norm_num)).mpr h2
      have h5 : (0.2 : ℝ) * (((vIP - vIN) - s.vi) / 0.2) = (vIP - vIN) - s.vi := by
        ring
      rwa [h5] at h4
    have h6 : 0 < 0.2 * Real.tanh (((vIP - vIN) - s.vi) / 0.2) := by
      have := (mul_lt_mul_left (show (0 : ℝ) < 0.2 by norm_num)).mpr h1
      simpa using this
    exact ⟨by linarith, by linarith⟩
  · intro hlt
    have harg : ((vIP - vIN) - s.vi) / 0.2 = -((s.vi - (vIP - vIN)) / 0.2) := by
      ring
    rw [harg, Real.tanh_neg]
    have ht : 0 < (s.vi - (vIP - vIN)) / 0.2 :=
      div_pos (by linarith) (by norm_num)
    have h1 := tanh_pos_of_pos ht
    have h2 := tanh_lt_self_of_pos ht
    have h3 : 0.2 * Real.tanh ((s.vi - (vIP - vIN)) / 0.2) < s.vi - (vIP - vIN) := by
      have h4 := (mul_lt_mul_left (show (0 : ℝ) < 0.2 by norm_num)).mpr h2
      have h5 : (0.2 : ℝ) * ((s.vi - (vIP - vIN)) / 0.2) = s.vi - (vIP - vIN) := by
        ring
      rwa [h5] at h4
    have h6 : 0 < 0.2 * Real.tanh ((s.vi - (vIP - vIN)) / 0.2) := by
      have := (mul_lt_mul_left (show (0 : ℝ) < 0.2 by norm_num)).mpr h1
      simpa using this
    exact ⟨by linarith, by linarith⟩

/-- Witness for C6: gain 1, current limit 1, old estimate 0, inputs 2 and 0. -/
theorem lvccs_damped_monotone_witness :
    |(mkLVCCS 1 1 0).core.G * (mkLVCCS 1 1 0).core.gfac / (mkLVCCS 1 1 0).cur_limit
      * ((2 : ℝ) - 0)| > 0.5 ∧
    ((mkLVCCS 1 1 0).vi < (2 : ℝ) - 0 →
      (mkLVCCS 1 1 0).vi < ((mkLVCCS 1 1 0).update_terminals 2 0).vi ∧
      ((mkLVCCS 1 1 0).update_terminals 2 0).vi < (2 : ℝ) - 0) :=
  ⟨by norm_num [mkLVCCS], (lvccs_damped_monotone (mkLVCCS 1 1 0) 2 0
    (by norm_num [mkLVCCS])).1⟩

/-- `tanh` in terms of the exponential: `tanh x = 1 − 2/(e^(2x) + 1)`. -/
theorem tanh_eq_one_sub (x : ℝ) :
    Real.tanh x = 1 - 2 / (Real.exp (2 * x) + 1) := by
  have h1 : (0 : ℝ) < Real.exp x := Real.exp_pos x
  have he : Real.exp (2 * x) = Real.exp x * Real.exp x := by
    rw [two_mul, Real.exp_add]
  have h3 : Real.exp x ≠ 0 := ne_of_gt h1
  have h4 : Real.exp x * Real.exp x + 1 ≠ 0 := by positivity
  have h5 : Real.exp x + 1 / Real.exp x ≠ 0 := by positivity
  rw [Real.tanh_eq_sinh_div_cosh, Real.sinh_eq, Real.cosh_eq, Real.exp_neg, he]
  rw [inv_eq_one_div]
  field_simp
  ring

/-- `tanh` tends to 1 at `+∞`. -/
theorem tendsto_tanh_atTop : Tendsto Real.tanh atTop (nhds 1) := by
  have hexp : Tendsto (fun x : ℝ => Real.exp (2 * x) + 1) atTop atTop :=
    tendsto_atTop_add_const_right atTop 1
      (Real.tendsto_exp_atTop.comp (Filter.Tendsto.const_mul_atTop two_pos tendsto_id))
  have h2 : Tendsto (fun x : ℝ => 2 / (Real.exp (2 * x) + 1)) atTop (nhds 0) :=
    Filter.Tendsto.div_atTop tendsto_const_nhds hexp
  have h3 : Tendsto (fun x : ℝ => 1 - 2 / (Real.exp (2 * x) + 1)) atTop (nhds (1 - 0)) :=
    tendsto_const_nhds.sub h2
  rw [sub_zero] at h3
  exact h3.congr fun x => (tanh_eq_one_sub x).symm

/-- `tanh` tends to −1 at `−∞`. -/
theorem tendsto_tanh_atBot : Tendsto Real.tanh atBot (nhds (-1)) := by
  have h := (tendsto_tanh_atTop.comp tendsto_neg_atBot_atTop).neg
  exact h.congr fun x => by
    simp only [Function.comp_apply]
    rw [Real.tanh_neg, neg_neg]

/-- The incremental factor `1 − tanh²` equals `1/cosh²`. -/
theorem one_sub_tanh_sq (x : ℝ) :
    1 - Real.tanh x * Real.tanh x = 1 / Real.cosh x ^ 2 := by
  have hc : Real.cosh x ≠ 0 := (Real.cosh_pos x).ne'
  rw [Real.tanh_eq_sinh_div_cosh]
  field_simp
  nlinarith [Real.cosh_sq_sub_sinh_sq x]

/-- `cosh²` dominates a quarter of `e^(2x)`. -/
theorem cosh_sq_ge (x : ℝ) : Real.exp (2 * x) / 4 ≤ Real.cosh x ^ 2 := by
  have h : Real.exp x / 2 ≤ Real.cosh x := by
    rw [Real.cosh_eq]
    have := (Real.exp_pos (-x)).le
    linarith
  have h2 : (0 : ℝ) ≤ Real.exp x / 2 := by positivity
  have h3 := mul_le_mul h h h2 (Real.cosh_pos x).le
  have he : Real.exp (2 * x) = Real.exp x * Real.exp x := by
    rw [two_mul, Real.exp_add]
  calc Real.exp (2 * x) / 4 = Real.exp x / 2 * (Real.exp x / 2) := by rw [he]; ring
  _ ≤ Real.cosh x * Real.cosh x := h3
  _ = Real.cosh x ^ 2 := (pow_two _).symm

/-- The tail term `(1 − tanh²y)·y` vanishes at `+∞`. -/
theorem tendsto_one_sub_tanh_sq_mul_atTop :
    Tendsto (fun y : ℝ => (1 - Real.tanh y * Real.tanh y) * y) atTop (nhds 0) := by
  have hupper : Tendsto (fun y : ℝ => 4 * y * Real.exp (-(2 * y))) atTop (nhds 0) := by
    have hbase := (Real.tendsto_pow_mul_exp_neg_atTop_nhds_zero 1).comp
      (Filter.Tendsto.const_mul_atTop two_pos tendsto_id)
    have h2 := hbase.const_mul (2 : ℝ)
    rw [mul_zero] at h2
    exact h2.congr fun y => by
      simp only [Function.comp_apply, id_eq, pow_one]
      ring
  apply tendsto_of_tendsto_of_tendsto_of_le_of_le' tendsto_const_nhds hupper
  · filter_upwards [eventually_ge_atTop (0 : ℝ)] with y hy
    rw [one_sub_tanh_sq]
    have hc : (0 : ℝ) ≤ 1 / Real.cosh y ^ 2 := by positivity
    exact mul_nonneg hc hy
  · filter_upwards [eventually_ge_atTop (0 : ℝ)] with y hy
    rw [one_sub_tanh_sq]
    have hep : (0 : ℝ) < Real.exp (2 * y) / 4 := by positivity
    have hinv : 1 / Real.cosh y ^ 2 ≤ 1 / (Real.exp (2 * y) / 4) :=
      one_div_le_one_div_of_le hep (cosh_sq_ge y)
    have hinv2 : (1 : ℝ) / (Real.exp (2 * y) / 4) = 4 * Real.exp (-(2 * y)) := by
      rw [Real.exp_neg]
      ring
    calc 1 / Real.cosh y ^ 2 * y ≤ 1 / (Real.exp (2 * y) / 4) * y :=
        mul_le_mul_of_nonneg_right hinv hy
    _ = 4 * y * Real.exp (-(2 * y)) := by rw [hinv2]; ring

/-- The tail term `(1 − tanh²y)·y` vanishes at `−∞`. -/
theorem tendsto_one_sub_tanh_sq_mul_atBot :
    Tendsto (fun y : ℝ => (1 - Real.tanh y * Real.tanh y) * y) atBot (nhds 0) := by
  have h := (tendsto_one_sub_tanh_sq_mul_atTop.comp tendsto_neg_atBot_atTop).neg
  rw [neg_zero] at h
  exact h.congr fun y => by
    simp only [Function.comp_apply]
    rw [Real.tanh_neg]
    ring

/-- At the operating point `filteredVi = vi` (inputs `vi` and 0, stored
estimate already `vi`), `update_terminals` stamps OP with conductance
`beta = mult·(1 − X²)` and current `I = cL·X − beta·vi`, `X = tanh(mult/cL·vi)`. -/
theorem lvccs_op_point (mult cL vi : ℝ) :
    ((mkLVCCS mult cL vi).update_terminals vi 0).core.OP.cond
      = mult * (1 - Real.tanh (mult / cL * vi) * Real.tanh (mult / cL * vi)) ∧
    ((mkLVCCS mult cL vi).update_terminals vi 0).core.OP.cur
      = cL * Real.tanh (mult / cL * vi)
        - mult * (1 - Real.tanh (mult / cL * vi) * Real.tanh (mult / cL * vi)) * vi := by
  constructor <;>
    simp [LVCCS.update_terminals, mkLVCCS, set3, set1, mul_one, sub_zero, sub_self,
      zero_div, Real.tanh_zero, mul_zero, add_zero, ite_self]

/-- C7 counterexample: with `mult = −1` and `currentLimit = 1` (both
nonzero, opposite signs) the stamped output current at the operating
point does not tend to `+currentLimit = 1` as `vi → +∞`; it tends to
`−1` instead. -/
theorem lvccs_saturation_cex :
    ¬ Tendsto (fun vi => ((mkLVCCS (-1) 1 vi).update_terminals vi 0).core.OP.cur)
        atTop (nhds 1) := by
  intro hcontra
  have h1 : Tendsto
      (fun vi : ℝ => -Real.tanh vi + (1 - Real.tanh vi * Real.tanh vi) * vi)
      atTop (nhds (-1)) := by
    have h := tendsto_tanh_atTop.neg.add tendsto_one_sub_tanh_sq_mul_atTop
    simpa using h
  have hlim : Tendsto (fun vi => ((mkLVCCS (-1) 1 vi).update_terminals vi 0).core.OP.cur)
      atTop (nhds (-1)) := by
    refine h1.congr fun vi => ?_
    rw [(lvccs_op_point (-1) 1 vi).2]
    have harg : (-1 : ℝ) / 1 * vi = -vi := by ring
    rw [harg, Real.tanh_neg]
    ring
  have hcon := tendsto_nhds_unique hcontra hlim
  norm_num at hcon

/-- C7 (amended: `mult` and `currentLimit` of the same sign, i.e.
`mult/currentLimit > 0`, `currentLimit ≠ 0`): at the operating point
`filteredVi = vi`, as `vi → +∞` the stamped output current tends to
`+currentLimit` and the stamped conductance `beta` tends to 0; as
`vi → −∞` the current tends to `−currentLimit` and `beta` to 0. -/
theorem lvccs_saturation (mult cL : ℝ) (hcL : cL ≠ 0) (hpos : 0 < mult / cL) :
    Tendsto (fun vi => ((mkLVCCS mult cL vi).update_terminals vi 0).core.OP.cur)
      atTop (nhds cL) ∧
    Tendsto (fun vi => ((mkLVCCS mult cL vi).update_terminals vi 0).core.OP.cond)
      atTop (nhds 0) ∧
    Tendsto (fun vi => ((mkLVCCS mult cL vi).update_terminals vi 0).core.OP.cur)
      atBot (nhds (-cL)) ∧
    Tendsto (fun vi => ((mkLVCCS mult cL vi).update_terminals vi 0).core.OP.cond)
      atBot (nhds 0) := by
  have hmc : mult / cL * cL = mult := div_mul_cancel₀ mult hcL
  have hcT : Tendsto (fun vi : ℝ => mult / cL * vi) atTop atTop :=
    Filter.Tendsto.const_mul_atTop hpos tendsto_id
  have hcB : Tendsto (fun vi : ℝ => mult / cL * vi) atBot atBot :=
    Filter.Tendsto.const_mul_atBot hpos tendsto_id
  have hXT : Tendsto (fun vi : ℝ => Real.tanh (mult / cL * vi)) atTop (nhds 1) :=
    tendsto_tanh_atTop.comp hcT
  have hXB : Tendsto (fun vi : ℝ => Real.tanh (mult / cL * vi)) atBot (nhds (-1)) :=
    tendsto_tanh_atBot.comp hcB
  have hbetaT : Tendsto
      (fun vi : ℝ => mult * (1 - Real.tanh (mult / cL * vi) * Real.tanh (mult / cL * vi)))
      atTop (nhds 0) := by
    have hone : Tendsto (fun _ : ℝ => (1 : ℝ)) atTop (nhds 1) := tendsto_const_nhds
    have h := (hone.sub (hXT.mul hXT)).const_mul mult
    simpa using h
  have hbetaB : Tendsto
      (fun vi : ℝ => mult * (1 - Real.tanh (mult / cL * vi) * Real.tanh (mult / cL * vi)))
      atBot (nhds 0) := by
    have hone : Tendsto (fun _ : ℝ => (1 : ℝ)) atBot (nhds 1) := tendsto_const_nhds
    have h := (hone.sub (hXB.mul hXB)).const_mul mult
    simpa using h
  have hbvT : Tendsto
      (fun vi : ℝ => mult * (1 - Real.tanh (mult / cL * vi) * Real.tanh (mult / cL * vi)) * vi)
      atTop (nhds 0) := by
    have hg := (tendsto_one_sub_tanh_sq_mul_atTop.comp hcT).const_mul cL
    rw [mul_zero] at hg
    refine hg.congr fun vi => ?_
    simp only [Function.comp_apply]
    calc cL * ((1 - Real.tanh (mult / cL * vi) * Real.tanh (mult / cL * vi)) * (mult / cL * vi))
        = (mult / cL * cL) * ((1 - Real.tanh (mult / cL * vi) * Real.tanh (mult / cL * vi)) * vi) := by
          ring
    _ = mult * (1 - Real.tanh (mult / cL * vi) * Real.tanh (mult / cL * vi)) * vi := by
          rw [hmc]; ring
  have hbvB : Tendsto
      (fun vi : ℝ => mult * (1 - Real.tanh (mult / cL * vi) * Real.tanh (mult / cL * vi)) * vi)
      atBot (nhds 0) := by
    have hg := (tendsto_one_sub_tanh_sq_mul_atBot.comp hcB).const_mul cL
    rw [mul_zero] at hg
    refine hg.congr fun vi => ?_
    simp only [Function.comp_apply]
    calc cL * ((1 - Real.tanh (mult / cL * vi) * Real.tanh (mult / cL * vi)) * (mult / cL * vi))
        = (mult / cL * cL) * ((1 - Real.tanh (mult / cL * vi) * Real.tanh (mult / cL * vi)) * vi) := by
          ring
    _ = mult * (1 - Real.tanh (mult / cL * vi) * Real.tanh (mult / cL * vi)) * vi := by
          rw [hmc]; ring
  refine ⟨?_, ?_, ?_, ?_⟩
  · have h := (hXT.const_mul cL).sub hbvT
    rw [mul_one, sub_zero] at h
    refine h.congr fun vi => ?_
    rw [(lvccs_op_point mult cL vi).2]
  · refine hbetaT.congr fun vi => ?_
    rw [(lvccs_op_point mult cL vi).1]
  · have h := (hXB.const_mul cL).sub hbvB
    rw [sub_zero] at h
    have hval : cL * (-1) = -cL := by ring
    rw [hval] at h
    refine h.congr fun vi => ?_
    rw [(lvccs_op_point mult cL vi).2]
  · refine hbetaB.congr fun vi => ?_
    rw [(lvccs_op_point mult cL vi).1]

/-- Witness for C7 at `mult = 1`, `currentLimit = 1`. -/
theorem lvccs_saturation_witness :
    ((1 : ℝ) ≠ 0 ∧ 0 < (1 : ℝ) / (1 : ℝ)) ∧
    (Tendsto (fun vi => ((mkLVCCS 1 1 vi).update_terminals vi 0).core.OP.cur)
       atTop (nhds 1) ∧
     Tendsto (fun vi => ((mkLVCCS 1 1 vi).update_terminals vi 0).core.OP.cond)
       atTop (nhds 0) ∧
     Tendsto (fun vi => ((mkLVCCS 1 1 vi).update_terminals vi 0).core.OP.cur)
       atBot (nhds (-1)) ∧
     Tendsto (fun vi => ((mkLVCCS 1 1 vi).update_terminals vi 0).core.OP.cond)
       atBot (nhds 0)) :=
  ⟨⟨by norm_num, by norm_num⟩, lvccs_saturation 1 1 (by norm_num) (by norm_num)⟩
